import Mathlib

/-!
Verification of the real-time audio streaming core of the JARVIS voice
front-end (`src/hooks/useGeminiLive.ts`).

The hook's mutable refs and React state are embedded as an explicit record
`HookState`; each callback of the source (`cleanup`, `connect`, `onopen`,
`onaudioprocess`, `onmessage`, `onended`, `onerror`, `onclose`) becomes a
function on that record.  Clock times and audio durations are rationals;
sample values are rationals; byte strings are lists of naturals.  Callbacks
run atomically, matching the single-threaded event-loop model: a whole
callback body is one step of the transition system `step`.
-/

namespace Jarvis

/-- One scheduled `AudioBufferSourceNode`: its scheduled start time on the
output clock, its buffer duration, and whether it is currently playing
(`source.stop()` sets `playing := false`). -/
structure PlaybackUnit where
  startTime : ℚ
  duration : ℚ
  playing : Bool
deriving DecidableEq

/-- The hook's refs and React state from `useGeminiLive`:
`isConnected`/`isSpeaking`/`error` are the React state fields;
`inputContext`, `outputContext`, `stream`, `processor`, `sourceNode` record
whether the corresponding ref currently holds a live resource;
`nextStartTime` is `nextStartTimeRef.current`; `scheduledSources` is the set
of in-flight playback units (insertion order); `openSessions` counts the
live session handles opened by `ai.live.connect` and not yet closed. -/
structure HookState where
  isConnected : Bool
  isSpeaking : Bool
  error : Option String
  inputContext : Bool
  outputContext : Bool
  stream : Bool
  processor : Bool
  sourceNode : Bool
  nextStartTime : ℚ
  scheduledSources : List PlaybackUnit
  openSessions : ℕ
deriving DecidableEq

/-- Initial state of the hook: all refs null, all state false/0. -/
def initState : HookState :=
  { isConnected := false, isSpeaking := false, error := none,
    inputContext := false, outputContext := false, stream := false,
    processor := false, sourceNode := false,
    nextStartTime := 0, scheduledSources := [], openSessions := 0 }

/-- `source.stop()` on a Web Audio node: stops a playing node, raises an
error on a node that is no longer playing. -/
def stopNode (u : PlaybackUnit) : Except String PlaybackUnit :=
  if u.playing then Except.ok { u with playing := false }
  else Except.error "InvalidStateError"

/-- `try { s.stop(); } catch (e) {}` — the error from an already-finished
node is swallowed and the node is left as is. -/
def tryStop (u : PlaybackUnit) : PlaybackUnit :=
  match stopNode u with
  | Except.ok u' => u'
  | Except.error _ => u

/-- The interruption branch of `onmessage`
(`serverContent.interrupted`): stop every scheduled source ignoring errors,
clear the set, reset `nextStartTime` to `0`, set `isSpeaking` to `false`.
Returns the new state together with the list of units the stop loop acted
on. -/
def interruptPair (s : HookState) : HookState × List PlaybackUnit :=
  ({ s with scheduledSources := [], nextStartTime := 0, isSpeaking := false },
   s.scheduledSources.map tryStop)

/-- State part of the interruption branch. -/
def interruptState (s : HookState) : HookState := (interruptPair s).1

/-- The audio branch of `onmessage` for a decoded buffer of duration `d`
arriving when the output clock reads `clock`:
`setIsSpeaking(true)`, `nextStartTime = max(nextStartTime, ctx.currentTime)`,
`source.start(nextStartTime)`, add the source to the set,
`nextStartTime += audioBuffer.duration`. -/
def enqueue (clock d : ℚ) (s : HookState) : HookState :=
  let startAt := max s.nextStartTime clock
  { s with isSpeaking := true,
           scheduledSources :=
             s.scheduledSources ++ [{ startTime := startAt, duration := d, playing := true }],
           nextStartTime := startAt + d }

/-- A sequence of audio-bearing messages, each a pair
(output-clock reading at arrival, buffer duration), enqueued in order. -/
def runEnqueues : HookState → List (ℚ × ℚ) → HookState
  | s, [] => s
  | s, (t, d) :: rest => runEnqueues (enqueue t d s) rest

/-- The (start time, duration) plan the scheduler produces from cursor
position `n` for messages arriving at the given clock times with the given
durations. -/
def schedPlan (n : ℚ) : List (ℚ × ℚ) → List (ℚ × ℚ)
  | [] => []
  | (t, d) :: rest => (max n t, d) :: schedPlan (max n t + d) rest

/-- `cleanup` (exposed as `disconnect`): disconnect and null the processor
and the media-stream source, stop the microphone tracks and drop the
stream, stop and clear every scheduled source, close and null both audio
contexts, set `isConnected` and `isSpeaking` to `false`.  The session
promise ref is not touched by the source, so `openSessions` and `error`
are unchanged. -/
def cleanup (s : HookState) : HookState :=
  { s with processor := false, sourceNode := false, stream := false,
           scheduledSources := [],
           inputContext := false, outputContext := false,
           isConnected := false, isSpeaking := false }

/-- The synchronous happy path of `connect` up to the `ai.live.connect`
call: clear `error`, check the credential
(`if (!apiKey && !window.aistudio) { setError("ERR_AUTH_MISSING"); return; }`),
create fresh input/output audio contexts, acquire the microphone stream,
and open a new live session.  Nothing of the previous session is torn
down: the old refs are merely overwritten and the old session stays open. -/
def connect (apiKey aistudio : Bool) (s : HookState) : HookState :=
  if !apiKey && !aistudio then { s with error := some "ERR_AUTH_MISSING" }
  else
    { s with error := none,
             inputContext := true, outputContext := true, stream := true,
             openSessions := s.openSessions + 1 }

/-- `onopen`: `setIsConnected(true)`; then, guarded by
`if (!inputContextRef.current || !streamRef.current) return;`, create the
media-stream source node and the script processor. -/
def onopenHandler (s : HookState) : HookState :=
  let s1 := { s with isConnected := true }
  if s1.inputContext && s1.stream then { s1 with sourceNode := true, processor := true }
  else s1

/-- `message.serverContent?.modelTurn?.parts?.[0]?.inlineData?.data`: a part
is modelled by the duration of the audio buffer its inline data decodes to
(`none` when the part carries no audio).  Only element 0 of the parts array
is consulted. -/
def firstPartAudio (parts : List (Option ℚ)) : Option ℚ := parts.head?.join

/-- Whole `onmessage` body: the audio branch, guarded by
`base64Audio && outputContextRef.current`, then the interruption branch. -/
def onmessageHandler (parts : List (Option ℚ)) (interrupted : Bool) (clock : ℚ)
    (s : HookState) : HookState :=
  let s1 :=
    match firstPartAudio parts with
    | some d => if s.outputContext then enqueue clock d s else s
    | none => s
  if interrupted then interruptState s1 else s1

/-- `source.onended` for the unit at position `i` of the in-flight set:
delete the source from the set; if the set became empty,
`setIsSpeaking(false)`. -/
def onendedHandler (i : ℕ) (s : HookState) : HookState :=
  let sch := s.scheduledSources.eraseIdx i
  { s with scheduledSources := sch,
           isSpeaking := if sch.isEmpty then false else s.isSpeaking }

/-- Does the character list `needle` occur as a prefix of `hay`? -/
def leadingChars : List Char → List Char → Bool
  | [], _ => true
  | _ :: _, [] => false
  | n :: ns, h :: hs => (n == h) && leadingChars ns hs

/-- Does the character list `needle` occur contiguously inside `hay`? -/
def charsContain (needle : List Char) : List Char → Bool
  | [] => leadingChars needle []
  | h :: hs => leadingChars needle (h :: hs) || charsContain needle hs

/-- JavaScript `hay.includes(needle)` on strings. -/
def strContains (hay needle : String) : Bool :=
  charsContain needle.toList hay.toList

/-- JavaScript `toLowerCase()` on one character (ASCII range, which covers
every character the classifier tests for). -/
def lowerChar (c : Char) : Char :=
  if 65 ≤ c.toNat && c.toNat ≤ 90 then Char.ofNat (c.toNat + 32) else c

/-- JavaScript `toLowerCase()` on a string. -/
def lowerStr (s : String) : String := String.mk (s.toList.map lowerChar)

/-- The error classification of `onerror`: start from `"ERR_SESSION_DROP"`
and refine by substring tests on the raw message, exactly as the chain of
`includes` checks in the source. -/
def classifyError (rawMsg : String) : String :=
  if strContains rawMsg "Network error" || strContains rawMsg "401" ||
      strContains rawMsg "403" then "ERR_NETWORK_OR_AUTH"
  else if strContains (lowerStr rawMsg) "requested entity was not found" then "ERR_NOT_FOUND"
  else if strContains (lowerStr rawMsg) "quota" then "ERR_QUOTA_EXCEEDED"
  else if strContains (lowerStr rawMsg) "safety" then "ERR_SAFETY_FILTER"
  else "ERR_SESSION_DROP"

/-- `onerror`: classify the raw message, `setError(msg)`, then `cleanup()`.
Both effects land within the same synchronous callback turn. -/
def onerrorHandler (rawMsg : String) (s : HookState) : HookState :=
  cleanup { s with error := some (classifyError rawMsg) }

/-- `onclose`: the server closed the connection (that session handle is no
longer open), then `cleanup()`. -/
def oncloseHandler (s : HookState) : HookState :=
  cleanup { s with openSessions := s.openSessions - 1 }

/-- The externally triggered events of the hook: the synchronous part of
`connect()` (with credentials present), the session callbacks, and the
exposed `disconnect()`. -/
inductive LiveEvent
  | connectCall
  | onopen
  | onmessage (parts : List (Option ℚ)) (interrupted : Bool) (clock : ℚ)
  | onended (i : ℕ)
  | onclose
  | onerror (raw : String)
  | disconnectCall
deriving DecidableEq

/-- One event-loop turn of the hook. -/
def step (s : HookState) : LiveEvent → HookState
  | LiveEvent.connectCall => connect true false s
  | LiveEvent.onopen => onopenHandler s
  | LiveEvent.onmessage parts intr clock => onmessageHandler parts intr clock s
  | LiveEvent.onended i => onendedHandler i s
  | LiveEvent.onclose => oncloseHandler s
  | LiveEvent.onerror raw => onerrorHandler raw s
  | LiveEvent.disconnectCall => cleanup s

/-- Run a trace of events. -/
def run (s : HookState) : List LiveEvent → HookState
  | [] => s
  | e :: es => run (step s e) es

/-- Does the event deliver an audio payload in the first part? -/
def audioEvent : LiveEvent → Bool
  | LiveEvent.onmessage parts _ _ => (firstPartAudio parts).isSome
  | _ => false

/-- The trace delivers audio-bearing messages only while the session is
connected (the delivery order a live session actually produces: `onopen`
before any `onmessage`, none after teardown). -/
def audioOnlyWhenConnected : HookState → List LiveEvent → Bool
  | _, [] => true
  | s, e :: es =>
    (!audioEvent e || s.isConnected) && audioOnlyWhenConnected (step s e) es

/-- Peak amplitude of a capture block, computed as in the source:
`maxVal` starts at 0 and takes `Math.abs` of every sample. -/
def peakAmplitude (block : List ℚ) : ℚ :=
  block.foldl (fun m x => max m |x|) 0

/-- Modelled from the spec: `createPcmBlob`'s per-sample quantization.
`src/utils/audio.ts` is imported by the hook but absent from the
repository sources; spec §4.1 prescribes scaling floating samples to
signed 16-bit integers with clamping to [-32768, 32767]. -/
def encodeSample (x : ℚ) : ℤ :=
  max (-32768) (min 32767 ⌊x * 32768⌋)

/-- Modelled from the spec: little-endian packing of one signed 16-bit
sample into two bytes (two's complement), per spec §4.1
("packing little-endian"); `src/utils/audio.ts` is absent from the
sources. -/
def int16ToBytes (i : ℤ) : List ℕ :=
  [(i % 65536).toNat % 256, (i % 65536).toNat / 256]

/-- Modelled from the spec: `createPcmBlob` (§4.1) — scale each sample of
the AudioFrame to a clamped signed 16-bit integer and pack little-endian.
The reversible text-safe transport wrapper (base64) is a bijection on byte
sequences and is elided.  `src/utils/audio.ts` is absent from the
sources. -/
def createPcmBlob (frame : List ℚ) : List ℕ :=
  (frame.map encodeSample).flatMap int16ToBytes

/-- Modelled from the spec: the byte-to-sample half of `decodeAudioData`
(§4.2) — read consecutive little-endian byte pairs as two's-complement
16-bit integers, dropping a trailing partial sample.
`src/utils/audio.ts` is absent from the sources. -/
def bytesToInt16s : List ℕ → List ℤ
  | lo :: hi :: rest =>
    (let u : ℕ := lo % 256 + 256 * (hi % 256)
     if u < 32768 then (u : ℤ) else (u : ℤ) - 65536) :: bytesToInt16s rest
  | _ => []

/-- Modelled from the spec: `decodeAudioData` (§4.2) — reconstruct the
floating AudioFrame by normalizing each 16-bit integer back to [-1, 1].
`src/utils/audio.ts` is absent from the sources. -/
def decodeAudioData (bytes : List ℕ) : List ℚ :=
  (bytesToInt16s bytes).map (fun i : ℤ => (i : ℚ) / 32768)

/-- `onaudioprocess` while streaming: compute the peak amplitude of the
block; if it exceeds the `0.005` noise gate, encode the block and hand it
to the session (`some chunk`), otherwise send nothing (`none`). -/
def onaudioprocess (block : List ℚ) : Option (List ℕ) :=
  if peakAmplitude block > 5 / 1000 then some (createPcmBlob block) else none

/-- The outbound messages produced for one capture block: one
`sendRealtimeInput` call when the gate passes, none otherwise. -/
def outboundFor (block : List ℚ) : List (List ℕ) :=
  match onaudioprocess block with
  | some c => [c]
  | none => []

/-- A state with two in-flight playback units, as in the spec's
interruption scenario. -/
def twoUnitState : HookState :=
  { initState with
    isConnected := true, inputContext := true, outputContext := true,
    stream := true, processor := true, sourceNode := true, openSessions := 1,
    isSpeaking := true, nextStartTime := 8 / 10,
    scheduledSources := [{ startTime := 0, duration := 1 / 2, playing := true },
                         { startTime := 1 / 2, duration := 3 / 10, playing := true }] }

/-- A fully connected state holding one open session handle. -/
def connectedExample : HookState :=
  { initState with
    isConnected := true, inputContext := true, outputContext := true,
    stream := true, processor := true, sourceNode := true, openSessions := 1 }

/-- A connected state with one unit playing and the cursor at 2, about to
receive an interruption while the output clock reads 5. -/
def preInterruptState : HookState :=
  { initState with
    isConnected := true, inputContext := true, outputContext := true,
    stream := true, processor := true, sourceNode := true, openSessions := 1,
    isSpeaking := true, nextStartTime := 2,
    scheduledSources := [{ startTime := 0, duration := 2, playing := true }] }

/- ------------------------------------------------------------------ -/
/- Helper lemmas                                                      -/
/- ------------------------------------------------------------------ -/

theorem tryStop_not_playing (u : PlaybackUnit) : (tryStop u).playing = false := by
  by_cases h : u.playing = true
  · simp [tryStop, stopNode, h]
  · simp only [Bool.not_eq_true] at h
    simp [tryStop, stopNode, h]

theorem runEnqueues_sched (msgs : List (ℚ × ℚ)) :
    ∀ s : HookState,
      (runEnqueues s msgs).scheduledSources.map (fun u => (u.startTime, u.duration)) =
        s.scheduledSources.map (fun u => (u.startTime, u.duration)) ++
          schedPlan s.nextStartTime msgs := by
  induction msgs with
  | nil => intro s; simp [runEnqueues, schedPlan]
  | cons p rest ih =>
    intro s
    obtain ⟨t, d⟩ := p
    rw [runEnqueues, ih (enqueue t d s), schedPlan]
    simp [enqueue]

theorem schedPlan_facts (msgs : List (ℚ × ℚ)) :
    ∀ n : ℚ, (∀ p ∈ msgs, 0 ≤ p.2) →
      (schedPlan n msgs).Chain' (fun p q => p.1 + p.2 ≤ q.1) ∧
      (schedPlan n msgs).Chain' (fun p q => p.1 ≤ q.1) ∧
      ∀ p ∈ schedPlan n msgs, n ≤ p.1 := by
  induction msgs with
  | nil => intro n _; simp [schedPlan]
  | cons p rest ih =>
    intro n hd
    obtain ⟨t, d⟩ := p
    have hd0 : 0 ≤ d := hd (t, d) (List.mem_cons_self _ _)
    have hrest : ∀ q ∈ rest, 0 ≤ q.2 := fun q hq => hd q (List.mem_cons_of_mem _ hq)
    obtain ⟨h1, h2, h3⟩ := ih (max n t + d) hrest
    have hstep : ∀ q ∈ schedPlan (max n t + d) rest, max n t + d ≤ q.1 := h3
    refine ⟨?_, ?_, ?_⟩
    · rw [schedPlan, List.chain'_cons']
      exact ⟨fun q hq => hstep q (List.mem_of_mem_head? hq), h1⟩
    · rw [schedPlan, List.chain'_cons']
      refine ⟨fun q hq => ?_, h2⟩
      have := hstep q (List.mem_of_mem_head? hq)
      linarith
    · intro q hq
      rw [schedPlan] at hq
      rcases List.mem_cons.mp hq with rfl | hq'
      · exact le_max_left _ _
      · have := hstep q hq'
        have := le_max_left n t
        linarith

theorem foldl_max_facts (l : List ℚ) :
    ∀ m : ℚ, m ≤ l.foldl (fun a x => max a |x|) m ∧
      ∀ x ∈ l, |x| ≤ l.foldl (fun a x => max a |x|) m := by
  induction l with
  | nil => intro m; simp
  | cons y ys ih =>
    intro m
    rw [List.foldl_cons]
    constructor
    · exact le_trans (le_max_left _ _) (ih (max m |y|)).1
    · intro x hx
      rcases List.mem_cons.mp hx with rfl | hx'
      · exact le_trans (le_max_right _ _) (ih (max m |x|)).1
      · exact (ih _).2 x hx'

/- ------------------------------------------------------------------ -/
/- Claim theorems                                                     -/
/- ------------------------------------------------------------------ -/

/-- C1: for any sequence of audio enqueues with durations `d1..dn` at
arbitrary clock times and no interruption in between, each unit is
scheduled at `max(nextStartTime, currentClockTime)`, `nextStartTime`
advances by exactly the unit's duration, and the resulting start times are
non-decreasing with unit `i`'s start at least unit `i-1`'s start plus its
duration (no overlap). -/
theorem playback_scheduling_no_overlap (s : HookState) (msgs : List (ℚ × ℚ))
    (hdur : ∀ p ∈ msgs, 0 ≤ p.2) :
    (∀ t d : ℚ,
        (enqueue t d s).scheduledSources =
          s.scheduledSources ++
            [{ startTime := max s.nextStartTime t, duration := d, playing := true }] ∧
        (enqueue t d s).nextStartTime = max s.nextStartTime t + d) ∧
    (s.scheduledSources = [] →
        (runEnqueues s msgs).scheduledSources.map (fun u => (u.startTime, u.duration)) =
          schedPlan s.nextStartTime msgs) ∧
    (schedPlan s.nextStartTime msgs).Chain' (fun p q => p.1 + p.2 ≤ q.1) ∧
    (schedPlan s.nextStartTime msgs).Chain' (fun p q => p.1 ≤ q.1) := by
  obtain ⟨h1, h2, _⟩ := schedPlan_facts msgs s.nextStartTime hdur
  refine ⟨fun t d => ⟨rfl, rfl⟩, fun hempty => ?_, h1, h2⟩
  rw [runEnqueues_sched msgs s, hempty]
  simp

/-- Concrete instance of C1: two buffers of duration 1/2 and 3/10 arriving
back to back. -/
theorem playback_scheduling_no_overlap_witness :
    (runEnqueues initState [(0, 1 / 2), (0, 3 / 10)]).scheduledSources.map
        (fun u => (u.startTime, u.duration)) = schedPlan 0 [(0, 1 / 2), (0, 3 / 10)] ∧
    (schedPlan (0 : ℚ) [(0, 1 / 2), (0, 3 / 10)]).Chain' (fun p q => p.1 + p.2 ≤ q.1) := by
  have h := playback_scheduling_no_overlap initState [(0, 1 / 2), (0, 3 / 10)]
    (by norm_num)
  exact ⟨h.2.1 rfl, h.2.2.1⟩

/-- C2: handling an interruption message with `N` in-flight units stops
all `N` of them (errors from already-finished units ignored), empties the
in-flight set, sets `speaking` to `false` within the same turn, and resets
`nextStartTime` to `0`. -/
theorem interruption_flush_all (s : HookState) :
    (interruptPair s).2.length = s.scheduledSources.length ∧
    (∀ u ∈ (interruptPair s).2, u.playing = false) ∧
    (interruptPair s).1.scheduledSources = [] ∧
    (interruptPair s).1.isSpeaking = false ∧
    (interruptPair s).1.nextStartTime = 0 := by
  refine ⟨by simp [interruptPair], ?_, rfl, rfl, rfl⟩
  intro u hu
  rw [interruptPair] at hu
  obtain ⟨v, _, rfl⟩ := List.mem_map.mp hu
  exact tryStop_not_playing v

/-- Concrete instance of C2: interruption with two in-flight units. -/
theorem interruption_flush_all_witness :
    (interruptPair twoUnitState).1.scheduledSources = [] ∧
    (interruptPair twoUnitState).1.isSpeaking = false ∧
    (interruptPair twoUnitState).1.nextStartTime = 0 ∧
    (interruptPair twoUnitState).2.length = 2 := by
  have h := interruption_flush_all twoUnitState
  exact ⟨h.2.2.1, h.2.2.2.1, h.2.2.2.2, h.1.trans rfl⟩

/-- C3: for each capture block while streaming, the computed peak bounds
every sample's magnitude; a block whose peak exceeds the 0.005 gate yields
exactly one outbound message containing the encoded block, and a block
whose peak is below the gate yields no outbound message. -/
theorem noise_gate_behaviour (block : List ℚ) :
    (∀ x ∈ block, |x| ≤ peakAmplitude block) ∧
    (peakAmplitude block > 5 / 1000 → outboundFor block = [createPcmBlob block]) ∧
    (peakAmplitude block < 5 / 1000 → outboundFor block = []) := by
  refine ⟨(foldl_max_facts block 0).2, fun h => ?_, fun h => ?_⟩
  · rw [outboundFor, onaudioprocess, if_pos h]
  · rw [outboundFor, onaudioprocess, if_neg (lt_asymm h)]

/-- Concrete instance of C3: a block with peak 0.01 produces one encoded
message; a block with peak 0.002 produces none. -/
theorem noise_gate_behaviour_witness :
    outboundFor [1 / 100] = [createPcmBlob [1 / 100]] ∧ outboundFor [1 / 500] = [] := by
  refine ⟨(noise_gate_behaviour [1 / 100]).2.1 ?_, (noise_gate_behaviour [1 / 500]).2.2 ?_⟩
  · show (5 : ℚ) / 1000 < peakAmplitude [1 / 100]
    rw [peakAmplitude, List.foldl_cons, List.foldl_nil,
      abs_of_pos (by norm_num : (0 : ℚ) < 1 / 100), lt_max_iff]
    norm_num
  · rw [peakAmplitude, List.foldl_cons, List.foldl_nil,
      abs_of_pos (by norm_num : (0 : ℚ) < 1 / 500), max_lt_iff]
    norm_num

theorem encodeSample_bounds (x : ℚ) :
    -32768 ≤ encodeSample x ∧ encodeSample x ≤ 32767 :=
  ⟨le_max_left _ _, max_le (by norm_num) (min_le_left _ _)⟩

theorem bytesToInt16s_append2 (i : ℤ) (bs : List ℕ)
    (h1 : -32768 ≤ i) (h2 : i ≤ 32767) :
    bytesToInt16s (int16ToBytes i ++ bs) = i :: bytesToInt16s bs := by
  rw [int16ToBytes, List.cons_append, List.cons_append, List.nil_append, bytesToInt16s]
  congr 1
  dsimp only
  split <;> omega

theorem bytesToInt16s_flatMap (l : List ℤ)
    (h : ∀ i ∈ l, -32768 ≤ i ∧ i ≤ 32767) :
    bytesToInt16s (l.flatMap int16ToBytes) = l := by
  induction l with
  | nil => rfl
  | cons i rest ih =>
    obtain ⟨h1, h2⟩ := h i (List.mem_cons_self _ _)
    rw [List.flatMap_cons, bytesToInt16s_append2 i _ h1 h2,
      ih (fun j hj => h j (List.mem_cons_of_mem _ hj))]

theorem encodeSample_error (x : ℚ) (h1 : -1 ≤ x) (h2 : x ≤ 1) :
    |(encodeSample x : ℚ) / 32768 - x| ≤ 1 / 32768 := by
  have hfl : (-32768 : ℤ) ≤ ⌊x * 32768⌋ := by
    rw [Int.le_floor]
    push_cast
    linarith
  have hmax : encodeSample x = min 32767 ⌊x * 32768⌋ :=
    max_eq_right (le_min (by norm_num) hfl)
  rcases le_or_lt ⌊x * 32768⌋ 32767 with hc | hc
  · have hval : encodeSample x = ⌊x * 32768⌋ := hmax.trans (min_eq_right hc)
    have hlow : ((⌊x * 32768⌋ : ℤ) : ℚ) ≤ x * 32768 := Int.floor_le _
    have hhigh : x * 32768 < ((⌊x * 32768⌋ : ℤ) : ℚ) + 1 := Int.lt_floor_add_one _
    rw [hval, abs_le]
    constructor <;> [linarith; linarith]
  · have hval : encodeSample x = 32767 := hmax.trans (min_eq_left hc.le)
    have hge : ((32768 : ℤ) : ℚ) ≤ ((⌊x * 32768⌋ : ℤ) : ℚ) := by exact_mod_cast hc
    have hlow : ((⌊x * 32768⌋ : ℤ) : ℚ) ≤ x * 32768 := Int.floor_le _
    have hx1 : x = 1 := le_antisymm h2 (by push_cast at hge; linarith)
    rw [hval, hx1]
    rw [show ((32767 : ℤ) : ℚ) / 32768 - 1 = -(1 / 32768) by norm_num, abs_neg,
      abs_of_nonneg (by norm_num)]

/-- C4 (modelled from the spec, `src/utils/audio.ts` being absent from the
sources): decoding the encoding of any sample array with values in
[-1, 1] yields an array of the same length whose every value is within one
quantization step (1/32768) of the original. -/
theorem pcm_roundtrip (S : List ℚ) (h : ∀ x ∈ S, -1 ≤ x ∧ x ≤ 1) :
    (decodeAudioData (createPcmBlob S)).length = S.length ∧
    List.Forall₂ (fun d x => |d - x| ≤ 1 / 32768) (decodeAudioData (createPcmBlob S)) S := by
  have hdec : decodeAudioData (createPcmBlob S) =
      S.map (fun x => ((encodeSample x : ℤ) : ℚ) / 32768) := by
    rw [decodeAudioData, createPcmBlob,
      bytesToInt16s_flatMap _ (fun i hi => by
        obtain ⟨x, _, rfl⟩ := List.mem_map.mp hi
        exact encodeSample_bounds x),
      List.map_map]
    rfl
  rw [hdec]
  refine ⟨by simp, ?_⟩
  rw [List.forall₂_map_left_iff, List.forall₂_same]
  intro x hx
  exact encodeSample_error x (h x hx).1 (h x hx).2

/-- Concrete instance of C4: round trip of the two-sample frame [0, 1/2]. -/
theorem pcm_roundtrip_witness :
    List.Forall₂ (fun d x => |d - x| ≤ 1 / 32768)
      (decodeAudioData (createPcmBlob [0, 1 / 2])) [0, 1 / 2] :=
  (pcm_roundtrip [0, 1 / 2] (by norm_num)).2

/-- C5 counterexample: `cleanup` (the exposed `disconnect`) never touches
the session promise ref, so the session handle is left in place rather
than torn down — on a connected state with one open session handle, the
handle is still open after `disconnect()`. -/
theorem cleanup_leaves_session_open :
    connectedExample.openSessions = 1 ∧ (cleanup connectedExample).openSessions = 1 :=
  ⟨rfl, rfl⟩

/-- C5 amended: `disconnect()` is idempotent and always safe — calling it
twice in a row, or before `connect()` has completed, produces no error —
and after it returns the capture pipeline (processor, source, microphone
stream), all scheduled playback units, and both audio contexts are
released with `connected` and `speaking` false; the session handle,
however, is left untouched. -/
theorem disconnect_idempotent_releases (s : HookState) :
    cleanup (cleanup s) = cleanup s ∧
    (cleanup s).processor = false ∧ (cleanup s).sourceNode = false ∧
    (cleanup s).stream = false ∧ (cleanup s).scheduledSources = [] ∧
    (cleanup s).inputContext = false ∧ (cleanup s).outputContext = false ∧
    (cleanup s).isConnected = false ∧ (cleanup s).isSpeaking = false ∧
    (cleanup s).error = s.error ∧ (cleanup s).openSessions = s.openSessions :=
  ⟨rfl, rfl, rfl, rfl, rfl, rfl, rfl, rfl, rfl, rfl, rfl⟩

/-- C6: the code keeps no single-session invariant — a `connect()` call
made while a session is already open performs no teardown of the existing
session, so after `connect; onopen; connect` the state holds two
simultaneously open sessions (evaluating the code at the failing input of
the claim). -/
theorem double_connect_opens_second_session :
    (run initState [LiveEvent.connectCall, LiveEvent.onopen]).isConnected = true ∧
    (run initState [LiveEvent.connectCall, LiveEvent.onopen]).openSessions = 1 ∧
    (run initState
      [LiveEvent.connectCall, LiveEvent.onopen, LiveEvent.connectCall]).openSessions = 2 := by
  refine ⟨by decide, by decide, by decide⟩

/-- C7: every asynchronously delivered session error is classified by
substring matching of its message against the fixed taxonomy
(ERR_NETWORK_OR_AUTH, ERR_NOT_FOUND, ERR_QUOTA_EXCEEDED,
ERR_SAFETY_FILTER), defaults to ERR_SESSION_DROP when nothing matches,
and the surfaced state also has the full teardown of `disconnect`
performed within the same synchronous callback turn. -/
theorem onerror_classify_teardown (raw : String) (s : HookState) :
    (onerrorHandler raw s).error = some (classifyError raw) ∧
    (classifyError raw = "ERR_NETWORK_OR_AUTH" ∨ classifyError raw = "ERR_NOT_FOUND" ∨
      classifyError raw = "ERR_QUOTA_EXCEEDED" ∨ classifyError raw = "ERR_SAFETY_FILTER" ∨
      classifyError raw = "ERR_SESSION_DROP") ∧
    (strContains raw "Network error" = false → strContains raw "401" = false →
      strContains raw "403" = false →
      strContains (lowerStr raw) "requested entity was not found" = false →
      strContains (lowerStr raw) "quota" = false →
      strContains (lowerStr raw) "safety" = false →
      classifyError raw = "ERR_SESSION_DROP") ∧
    (onerrorHandler raw s).isConnected = false ∧ (onerrorHandler raw s).isSpeaking = false ∧
    (onerrorHandler raw s).processor = false ∧ (onerrorHandler raw s).sourceNode = false ∧
    (onerrorHandler raw s).stream = false ∧ (onerrorHandler raw s).inputContext = false ∧
    (onerrorHandler raw s).outputContext = false ∧
    (onerrorHandler raw s).scheduledSources = [] := by
  refine ⟨rfl, ?_, ?_, rfl, rfl, rfl, rfl, rfl, rfl, rfl, rfl⟩
  · rw [classifyError]
    split_ifs <;> simp
  · intro h1 h2 h3 h4 h5 h6
    rw [classifyError]
    simp [h1, h2, h3, h4, h5, h6]

/-- Concrete instance of C7: an unclassifiable message surfaces
ERR_SESSION_DROP with teardown done. -/
theorem onerror_classify_teardown_witness :
    (onerrorHandler "boom" initState).error = some "ERR_SESSION_DROP" ∧
    (onerrorHandler "boom" initState).isConnected = false := by
  have h := onerror_classify_teardown "boom" initState
  have hdef : classifyError "boom" = "ERR_SESSION_DROP" :=
    h.2.2.1 (by decide) (by decide) (by decide) (by decide) (by decide) (by decide)
  exact ⟨hdef ▸ h.1, h.2.2.2.1⟩

theorem step_preserves_speak_conn (s : HookState) (e : LiveEvent)
    (hinv : s.isSpeaking = true → s.isConnected = true)
    (he : (!audioEvent e || s.isConnected) = true) :
    (step s e).isSpeaking = true → (step s e).isConnected = true := by
  cases e with
  | connectCall => simpa [step, connect] using hinv
  | onopen =>
    intro _
    rw [step, onopenHandler]
    split <;> rfl
  | onmessage parts intr clock =>
    rw [step, onmessageHandler]
    cases hfa : firstPartAudio parts with
    | none =>
      cases intr with
      | true => intro hsp; simp [interruptState, interruptPair] at hsp
      | false => simpa using hinv
    | some d =>
      have hconn : s.isConnected = true := by
        simpa [audioEvent, hfa] using he
      cases intr with
      | true => intro hsp; simp [interruptState, interruptPair] at hsp
      | false =>
        by_cases hout : s.outputContext = true
        · intro _
          simp [hout, enqueue, hconn]
        · simp only [Bool.not_eq_true] at hout
          simp [hout]
          exact fun _ => hconn
  | onended i =>
    rw [step, onendedHandler]
    intro hsp
    simp only at hsp
    split at hsp
    · exact absurd hsp (by simp)
    · exact hinv hsp
  | onclose => intro hsp; simp [step, oncloseHandler, cleanup] at hsp
  | onerror raw => intro hsp; simp [step, onerrorHandler, cleanup] at hsp
  | disconnectCall => intro hsp; simp [step, cleanup] at hsp

theorem run_speak_conn_invariant (es : List LiveEvent) :
    ∀ s : HookState, (s.isSpeaking = true → s.isConnected = true) →
      audioOnlyWhenConnected s es = true →
      ((run s es).isSpeaking = true → (run s es).isConnected = true) := by
  induction es with
  | nil => intro s h _; exact h
  | cons e rest ih =>
    intro s h hA
    rw [audioOnlyWhenConnected, Bool.and_eq_true] at hA
    exact ih (step s e) (step_preserves_speak_conn s e h hA.1) hA.2

/-- C8 counterexample: under an arbitrary order of the callbacks the
consistency claim fails — if an audio-bearing `onmessage` is handled after
`connect()`'s synchronous setup but before `onopen`, the state has
`speaking = true` while `connected = false`. -/
theorem speaking_while_disconnected :
    (run initState
      [LiveEvent.connectCall, LiveEvent.onmessage [some 1] false 0]).isSpeaking = true ∧
    (run initState
      [LiveEvent.connectCall, LiveEvent.onmessage [some 1] false 0]).isConnected = false :=
  ⟨by decide, by decide⟩

/-- C8 amended: in every state reachable by a trace in which each
audio-bearing `onmessage` is handled while `connected` is true (the order
a live session actually delivers: `onopen` before its messages, none
after teardown), `speaking` is never true when `connected` is false. -/
theorem speaking_implies_connected (es : List LiveEvent)
    (h : audioOnlyWhenConnected initState es = true) :
    (run initState es).isSpeaking = true → (run initState es).isConnected = true :=
  run_speak_conn_invariant es initState (by decide) h

/-- Concrete instance of C8 amended: a connect-open-audio trace ends
connected. -/
theorem speaking_implies_connected_witness :
    (run initState [LiveEvent.connectCall, LiveEvent.onopen,
      LiveEvent.onmessage [some 1] false 0]).isConnected = true :=
  speaking_implies_connected
    [LiveEvent.connectCall, LiveEvent.onopen, LiveEvent.onmessage [some 1] false 0]
    (by decide) (by decide)

/-- C9 counterexample: handling an interruption while the output clock
reads 5 leaves `nextStartTime = 0`, not the current clock time 5 — the
code resets the cursor to zero. -/
theorem interruption_resets_cursor_cex :
    (onmessageHandler [] true 5 preInterruptState).nextStartTime ≠ 5 := by
  norm_num [onmessageHandler, firstPartAudio, interruptState, interruptPair]

/-- C9 amended: on interruption the timeline cursor `nextStartTime` is
reset to `0` (the next enqueue then starts at
`max(0, currentClockTime) = currentClockTime`). -/
theorem interruption_resets_cursor_to_zero (parts : List (Option ℚ)) (clock : ℚ)
    (s : HookState) :
    (onmessageHandler parts true clock s).nextStartTime = 0 := rfl

/-- C10: only the audio payload of the first element of
`serverContent.modelTurn.parts` is consulted — the handler's result
depends only on the head of the parts array, so audio in later parts of
the same message is ignored. -/
theorem only_first_part_consumed (parts₁ parts₂ : List (Option ℚ)) (intr : Bool)
    (clock : ℚ) (s : HookState) (h : parts₁.head? = parts₂.head?) :
    onmessageHandler parts₁ intr clock s = onmessageHandler parts₂ intr clock s := by
  rw [onmessageHandler, onmessageHandler, firstPartAudio, firstPartAudio, h]

/-- Concrete instance of C10: a second part carrying audio changes
nothing. -/
theorem only_first_part_consumed_witness :
    onmessageHandler [some 1, some 2] false 0 initState =
      onmessageHandler [some 1] false 0 initState :=
  only_first_part_consumed [some 1, some 2] [some 1] false 0 initState rfl

end Jarvis
